import Mathlib

/-!
Verification of the multiplayer quiz game server (room lifecycle and
turn/steal game engine) against its natural-language specification.

The server code is JavaScript (Firestore-backed).  We give a shallow
embedding: the per-room persisted state (room document, players
subcollection, questions subcollection) becomes the structure GameState,
and each service entrypoint (startGame, submitAnswer, handleSteal,
handlePlayerLeave, cleanupOnDisconnect, handleRejoinGame, joinRoom,
leaveRoom, updateGameSettings, the timer callback) becomes a pure function
GameState to GameState paired with a result value.  JavaScript throw is
modelled as an error result with the state returned unchanged (every throw
in the embedded functions happens before any write).  The -1 sentinel used
by the code for currentPlayerIndexInOrder and for indexOf is kept, so index
fields are Int.  External collaborators (the trivia provider, the random
number generator) are modelled as explicit parameters.
-/

namespace QuizGame

/-- Game settings stored on the room document (all fields are always
present once a room is created, mirroring createRoom in roomService.js). -/
structure GameSettings where
  questionsPerPlayer : Nat
  turnTimeoutSec : Nat
  stealTimeoutSec : Nat
  allowSteal : Bool
  bonusForSteal : Nat
  deriving DecidableEq, Repr

/-- A player document in the players subcollection of a room. -/
structure Player where
  uid : String
  name : String
  joinOrder : Nat
  score : Nat
  online : Bool
  role : String
  deriving DecidableEq, Repr

/-- A question document in the questions subcollection of a room.  The
document id is the stringified 0-based index; we keep the list position as
the index and the id field as stored by startGame. -/
structure Question where
  id : String
  text : String
  options : List String
  correctIndex : Nat
  deriving DecidableEq, Repr

/-- The currentStealAttempt field of the room document. -/
structure StealAttempt where
  stealerUid : String
  questionDbIndex : Nat
  deriving DecidableEq, Repr

/-- The room document. -/
structure Room where
  hostUid : String
  state : String
  questionCount : Nat
  currentQuestionDbIndex : Nat
  currentTurnUid : Option String
  activeTurnOrderUids : List String
  currentPlayerIndexInOrder : Int
  currentStealAttempt : Option StealAttempt
  gameSettings : GameSettings
  deriving DecidableEq, Repr

/-- The persisted state of one room: the room document (roomExists models
document existence, since deleting the room document does not delete the
players or questions subcollections in Firestore), the players
subcollection kept in joinOrder, and the questions subcollection kept in
index order. -/
structure GameState where
  roomExists : Bool
  room : Room
  players : List Player
  questions : List Question
  deriving DecidableEq, Repr

/-- JavaScript Array.prototype.indexOf: first index or -1. -/
def jsIndexOf (l : List String) (x : String) : Int :=
  match l.indexOf? x with
  | some i => (i : Int)
  | none => -1

/-- indexOf with a possibly-null needle (indexOf of null never matches). -/
def jsIndexOfOpt (l : List String) (x : Option String) : Int :=
  match x with
  | some s => jsIndexOf l s
  | none => -1

theorem jsIndexOf_nonneg_lt {l : List String} {x : String}
    (h : jsIndexOf l x ≠ -1) : 0 ≤ jsIndexOf l x ∧ (jsIndexOf l x).toNat < l.length := by
  unfold jsIndexOf at *
  cases hi : l.indexOf? x with
  | none => simp [hi] at h
  | some i =>
    have hlt : i < l.length :=
      ((List.findIdx?_eq_some_iff_findIdx_eq).mp (by simpa [List.indexOf?] using hi)).1
    simp [hi]
    exact hlt

/-- getPlayer model function: lookup of a player document by uid. -/
def getPlayer (st : GameState) (uid : String) : Option Player :=
  st.players.find? (fun p => p.uid == uid)

/-- updatePlayer with online field. -/
def setOnline (st : GameState) (uid : String) (b : Bool) : GameState :=
  { st with players := st.players.map (fun p => if p.uid == uid then { p with online := b } else p) }

/-- updatePlayer with role field. -/
def setRole (st : GameState) (uid : String) (r : String) : GameState :=
  { st with players := st.players.map (fun p => if p.uid == uid then { p with role := r } else p) }

/-- updatePlayer with online and role in one write (handleRejoinGame). -/
def setOnlineRole (st : GameState) (uid : String) (b : Bool) (r : String) : GameState :=
  { st with players := st.players.map (fun p =>
      if p.uid == uid then { p with online := b, role := r } else p) }

/-- incrementPlayerScore model function (FieldValue.increment). -/
def incScore (st : GameState) (uid : String) (amount : Nat) : GameState :=
  { st with players := st.players.map (fun p =>
      if p.uid == uid then { p with score := p.score + amount } else p) }

/-- The eligibility test used throughout gameService.js: the player
document exists, is online, and has the player role (a missing role field
is treated as player by the code; in the model the role is always set). -/
def isOnlinePlayer (st : GameState) (uid : String) : Bool :=
  match getPlayer st uid with
  | some p => p.online && p.role == "player"
  | none => false

/-- getQuestion model function: the question subcollection document at a
0-based index. -/
def getQuestion (st : GameState) (idx : Nat) : Option Question :=
  st.questions.get? idx

/-- The scan loop of findNextOnlinePlayerInFixedOrder: for i = 1 .. fuel,
probe position (startIndex + i) mod n of the order (JavaScript % is
truncated remainder, Int.tmod) and return the first candidate that is an
online player.  A probe outside the array (only possible for a negative
index, which JavaScript reads as undefined) finds nothing. -/
def scanFrom (st : GameState) (order : List String) (startIndex : Int) :
    Nat → Nat → Option (String × Nat)
  | _, 0 => none
  | i, fuel + 1 =>
    let idx : Int := (startIndex + (i : Int)).tmod (order.length : Int)
    match order.get? idx.toNat with
    | some cand =>
      if 0 ≤ idx ∧ (isOnlinePlayer st cand = true) then
        some (cand, idx.toNat)
      else
        scanFrom st order startIndex (i + 1) fuel
    | none => scanFrom st order startIndex (i + 1) fuel

/-- findNextOnlinePlayerInFixedOrder from gameService.js.  startAfterUid
may be null at one call site (modelled as none). -/
def findNextOnlinePlayer (st : GameState) (startAfterUid : Option String) :
    Option (String × Nat) :=
  let order := st.room.activeTurnOrderUids
  if order.length = 0 then none
  else
    let i0 := jsIndexOfOpt order startAfterUid
    let startIndex : Int :=
      if i0 = -1 then
        (if st.room.currentPlayerIndexInOrder ≠ -1 then st.room.currentPlayerIndexInOrder else -1)
      else i0
    scanFrom st order startIndex 1 order.length

theorem scanFrom_lt {st : GameState} {order : List String} {startIndex : Int}
    {i fuel : Nat} {u : String} {j : Nat}
    (h : scanFrom st order startIndex i fuel = some (u, j)) : j < order.length := by
  induction fuel generalizing i with
  | zero => simp [scanFrom] at h
  | succ n ih =>
    rw [scanFrom] at h
    split at h
    next cand hidx =>
      split at h
      · cases h
        exact List.get?_eq_some.mp hidx |>.choose_spec |> fun _ =>
          (List.get?_eq_some.mp hidx).choose
      · exact ih h
    next => exact ih h

theorem scanFrom_online {st : GameState} {order : List String} {startIndex : Int}
    {i fuel : Nat} {u : String} {j : Nat}
    (h : scanFrom st order startIndex i fuel = some (u, j)) :
    isOnlinePlayer st u = true := by
  induction fuel generalizing i with
  | zero => simp [scanFrom] at h
  | succ n ih =>
    rw [scanFrom] at h
    split at h
    next cand hidx =>
      split at h
      next hcond =>
        cases h
        exact hcond.2
      next => exact ih h
    next => exact ih h

theorem findNextOnlinePlayer_lt {st : GameState} {s : Option String} {u : String} {j : Nat}
    (h : findNextOnlinePlayer st s = some (u, j)) :
    j < st.room.activeTurnOrderUids.length := by
  simp only [findNextOnlinePlayer] at h
  split at h
  · simp at h
  · exact scanFrom_lt h

theorem findNextOnlinePlayer_online {st : GameState} {s : Option String} {u : String} {j : Nat}
    (h : findNextOnlinePlayer st s = some (u, j)) :
    isOnlinePlayer st u = true := by
  simp only [findNextOnlinePlayer] at h
  split at h
  · simp at h
  · exact scanFrom_online h

/-- Result value returned by an engine entrypoint.  error models a
JavaScript throw (caught by the dispatcher, which replies with status
error); noAction models a reply carrying noActionTaken = true. -/
inductive GameResult where
  | noAction
  | error (msg : String)
  | stealPhase (stealerUid : String)
  | nextTurn (turnUid : String) (questionNum : Nat)
  | endGame
  deriving DecidableEq, Repr

/-- The final room write of setupNextTurnOrEndGame (new turn position,
steal attempt cleared) together with the nextTurn emission. -/
def finishSetup (st : GameState) (uid : String) (idx : Nat) (newQ : Nat) :
    GameState × GameResult :=
  ({ st with room := { st.room with
      currentTurnUid := some uid,
      currentPlayerIndexInOrder := (idx : Int),
      currentQuestionDbIndex := newQ,
      currentStealAttempt := none } }, .nextTurn uid (newQ + 1))

/-- The end-of-game room update used by the question-load-failure and
no-substitute branches of setupNextTurnOrEndGame, by the no-next-player
branches of submitAnswer, and by the stealer-not-in-order branch of
handleSteal.  Note: it does not touch currentStealAttempt or
currentQuestionDbIndex. -/
def endNoClear (st : GameState) : GameState :=
  { st with room := { st.room with
      state := "ended", currentTurnUid := none, currentPlayerIndexInOrder := -1 } }

/-- setupNextTurnOrEndGame from gameService.js. -/
def setupNextTurnOrEndGame (st : GameState) (newUid : String) (newIdx : Nat) (newQ : Nat) :
    GameState × GameResult :=
  if newQ ≥ st.room.questionCount then
    ({ st with room := { st.room with
        state := "ended",
        currentTurnUid := none,
        currentQuestionDbIndex := newQ,
        currentPlayerIndexInOrder := -1,
        currentStealAttempt := none } }, .endGame)
  else
    match getQuestion st newQ with
    | none => (endNoClear st, .endGame)
    | some _ =>
      if isOnlinePlayer st newUid = true then
        finishSetup st newUid newIdx newQ
      else
        match findNextOnlinePlayer st (some newUid) with
        | none => (endNoClear st, .endGame)
        | some (subUid, subIdx) => finishSetup st subUid subIdx newQ

/-- The find-next-then-advance-or-end pattern that submitAnswer uses after
correct answers, after incorrect answers with steal disabled, and after
incorrect answers with no distinct eligible stealer. -/
def advanceAfter (st : GameState) (uid : String) (newQ : Nat) : GameState × GameResult :=
  match findNextOnlinePlayer st (some uid) with
  | none => (endNoClear st, .endGame)
  | some (nu, ni) => setupNextTurnOrEndGame st nu ni newQ

/-- The question-id guard shared by submitAnswer and handleSteal: the
question at currentQuestionDbIndex when its id equals the submitted
questionId, none on a missing question or an id mismatch. -/
def currentQuestionIfMatch (st : GameState) (qid : String) : Option Question :=
  match getQuestion st st.room.currentQuestionDbIndex with
  | some q => if q.id = qid then some q else none
  | none => none

/-- True when the submitted questionId does not match the id of the
question at currentQuestionDbIndex (or that question is missing). -/
def questionMismatch (st : GameState) (qid : String) : Bool :=
  match getQuestion st st.room.currentQuestionDbIndex with
  | some q => q.id != qid
  | none => true

theorem currentQuestionIfMatch_eq_none {st : GameState} {qid : String}
    (h : questionMismatch st qid = true) : currentQuestionIfMatch st qid = none := by
  unfold questionMismatch at h
  unfold currentQuestionIfMatch
  cases hq : getQuestion st st.room.currentQuestionDbIndex with
  | none => rfl
  | some q =>
    rw [hq] at h
    change (q.id != qid) = true at h
    change (if q.id = qid then some q else none) = none
    rw [if_neg (by simpa using h)]

/-- submitAnswer from gameService.js. answerIndex is Int because the timer
path passes -1. -/
def submitAnswer (st : GameState) (uid qid : String) (answerIndex : Int) (isTimeout : Bool) :
    GameState × GameResult :=
  if ¬ (st.roomExists = true ∧ st.room.state = "active") then (st, .noAction)
  else if isTimeout = false ∧ st.room.currentTurnUid ≠ some uid then
    (st, .error "Not your turn.")
  else if isTimeout = true ∧ st.room.currentTurnUid ≠ some uid then
    (st, .noAction)
  else
    match currentQuestionIfMatch st qid with
    | none =>
      if isTimeout then (st, .noAction)
      else (st, .error "Question ID mismatch or question not found.")
    | some q =>
      let isCorrect : Bool := !isTimeout && ((q.correctIndex : Int) == answerIndex)
      let st1 := if isCorrect then incScore st uid 1 else st
      let curQ := st.room.currentQuestionDbIndex
      if isCorrect then
        advanceAfter st1 uid (curQ + 1)
      else
        if st.room.gameSettings.allowSteal = false then
          advanceAfter st1 uid (curQ + 1)
        else
          let stealer? :=
            match findNextOnlinePlayer st1 (some uid) with
            | some (s, _) => if s ≠ uid then some s else none
            | none => none
          match stealer? with
          | some s =>
            ({ st1 with room := { st1.room with
                currentStealAttempt := some ⟨s, curQ⟩ } }, .stealPhase s)
          | none => advanceAfter st1 uid (curQ + 1)

/-- The steal guard of handleSteal: no pending steal attempt, a different
stealer, or a steal attempt recorded for a different question index. -/
def stealGuardFail (st : GameState) (uid : String) : Bool :=
  match st.room.currentStealAttempt with
  | none => true
  | some sa => sa.stealerUid != uid || st.room.currentQuestionDbIndex != sa.questionDbIndex

/-- The part of the steal guard that makes a timeout stale (silently
dropped): no pending steal attempt or a different stealer.  A timeout
whose stealer matches but whose question index does not is not treated as
stale and throws instead. -/
def stealTimerStale (st : GameState) (uid : String) : Bool :=
  match st.room.currentStealAttempt with
  | none => true
  | some sa => sa.stealerUid != uid

/-- handleSteal (the submitSteal entrypoint) from gameService.js. -/
def handleSteal (st : GameState) (uid qid : String) (answerIndex : Int) (isTimeout : Bool) :
    GameState × GameResult :=
  if ¬ (st.roomExists = true ∧ st.room.state = "active") then (st, .noAction)
  else
    if stealGuardFail st uid then
      if isTimeout && stealTimerStale st uid then (st, .noAction)
      else (st, .error "Not your turn to steal or steal attempt is stale or invalid.")
    else
      match currentQuestionIfMatch st qid with
      | none => (st, .error "Steal question ID mismatch.")
      | some q =>
        let isCorrect : Bool := !isTimeout && ((q.correctIndex : Int) == answerIndex)
        let st1 :=
          if isCorrect then incScore st uid (1 + st.room.gameSettings.bonusForSteal) else st
        let k := jsIndexOf st.room.activeTurnOrderUids uid
        if k = -1 then (endNoClear st1, .endGame)
        else setupNextTurnOrEndGame st1 uid k.toNat (st.room.currentQuestionDbIndex + 1)

/-- The mark-offline step at the top of handlePlayerLeave. -/
def markOffline (st : GameState) (uid : String) : GameState :=
  match getPlayer st uid with
  | some p => if p.online then setOnline st uid false else st
  | none => st

/-- The activeTurnOrderUids trimming step of handlePlayerLeave: drop the
leaver from the order and, when the removed slot was at or before the
current one and the current index is positive, decrement the index. -/
def removeFromOrder (st : GameState) (uid : String) : GameState :=
  let order := st.room.activeTurnOrderUids
  let newOrder := order.filter (fun x => x != uid)
  if newOrder.length < order.length then
    let oldIdx := jsIndexOf order uid
    let curIdx := st.room.currentPlayerIndexInOrder
    let newIdx := if oldIdx ≠ -1 ∧ oldIdx ≤ curIdx ∧ curIdx > 0 then curIdx - 1 else curIdx
    { st with room := { st.room with
        activeTurnOrderUids := newOrder, currentPlayerIndexInOrder := newIdx } }
  else st

/-- The insufficient-players end-of-game update of handlePlayerLeave
(clears the steal attempt). -/
def endInsufficient (st : GameState) : GameState :=
  { st with room := { st.room with
      state := "ended", currentTurnUid := none,
      currentStealAttempt := none, currentPlayerIndexInOrder := -1 } }

/-- The question-missing end-of-game update of handlePlayerLeave (clears
the steal attempt but leaves currentPlayerIndexInOrder untouched). -/
def endQuestionMissing (st : GameState) : GameState :=
  { st with room := { st.room with
      state := "ended", currentTurnUid := none, currentStealAttempt := none } }

/-- handlePlayerLeave from gameService.js: game-state consequences of a
voluntary leave from an active room (runs after roomService.leaveRoom has
deleted the player document). -/
def handlePlayerLeave (st : GameState) (uid : String) : GameState :=
  if ¬ (st.roomExists = true ∧ st.room.state = "active") then st
  else
    let st2 := removeFromOrder (markOffline st uid) uid
    let onlineCount :=
      st2.room.activeTurnOrderUids.countP (fun pid => isOnlinePlayer st2 pid)
    if onlineCount < 2 then endInsufficient st2
    else
      match getQuestion st2 st2.room.currentQuestionDbIndex with
      | none => endQuestionMissing st2
      | some q =>
        if st2.room.currentTurnUid = some uid then
          (submitAnswer st2 uid q.id (-1) true).1
        else
          match st2.room.currentStealAttempt with
          | some sa =>
            if sa.stealerUid = uid then (handleSteal st2 uid q.id (-1) true).1 else st2
          | none => st2

/-- Reply of roomService.leaveRoom. -/
structure LeaveOutcome where
  hostChanged : Bool
  newHostUid : Option String
  roomDeleted : Bool
  deriving DecidableEq, Repr

/-- roomService.leaveRoom: delete the player document; if the room became
empty delete the room document (subcollections persist, mirroring the
deleteRoom model function which deletes only the room document); otherwise
migrate the host if needed. -/
def leaveRoomSvc (st : GameState) (uid : String) : GameState × LeaveOutcome :=
  if st.roomExists = false then (st, ⟨false, none, false⟩)
  else
    let st1 := { st with players := st.players.filter (fun p => p.uid ≠ uid) }
    if st1.players.isEmpty then
      ({ st1 with roomExists := false }, ⟨false, none, true⟩)
    else
      if st.room.hostUid = uid then
        let remaining : List Player := st1.players
        let cand : Option Player :=
          match remaining.find? (fun p => p.online && p.role == "player") with
          | some c => some c
          | none =>
            match remaining.find? (fun p => p.role == "player") with
            | some c => some c
            | none =>
              match remaining.find? (fun p => p.online && p.role == "spectator") with
              | some c => some c
              | none => remaining.head?
        match cand with
        | some c =>
          let st2 := { st1 with room := { st1.room with hostUid := c.uid } }
          if c.role = "spectator" then
            (setRole st2 c.uid "player", ⟨true, some c.uid, false⟩)
          else (st2, ⟨true, some c.uid, false⟩)
        | none => ({ st1 with roomExists := false }, ⟨false, none, true⟩)
      else (st1, ⟨false, none, false⟩)

/-- The leaveRoom socket handler: roomService.leaveRoom first, then the
game-state consequences when the room was active at the start of the
handler. -/
def voluntaryLeave (st : GameState) (uid : String) : GameState :=
  let wasActive := st.roomExists = true ∧ st.room.state = "active"
  let st1 := (leaveRoomSvc st uid).1
  if wasActive then handlePlayerLeave st1 uid else st1

/-- Reply of roomService.joinRoom. -/
inductive JoinOutcome where
  | ok (role roomState : String)
  | err (msg : String)
  deriving DecidableEq, Repr

/-- roomService.joinRoom (the body of the join transaction). -/
def joinRoomSvc (st : GameState) (uid name : String) : GameState × JoinOutcome :=
  if st.roomExists = false then (st, .err "Room not found with that code.")
  else if st.room.state = "ended" then
    (st, .err "This game has ended and cannot be joined for now.")
  else
    match getPlayer st uid with
    | some p =>
      let role := if st.room.state = "active" ∧ p.role ≠ "player" then "spectator" else p.role
      (setOnlineRole st uid true role, .ok role st.room.state)
    | none =>
      let total := st.players.length
      if total ≥ 13 then (st, .err "Room is at maximum capacity.")
      else
        let addNew := fun (r : String) =>
          (({ st with players :=
              st.players ++ [⟨uid, name, total + 1, 0, true, r⟩] } : GameState),
           JoinOutcome.ok r st.room.state)
        if st.room.state = "active" then
          let specCount := st.players.countP (fun p => p.role == "spectator")
          if specCount ≥ 5 then (st, .err "Room is full for spectators.")
          else addNew "spectator"
        else
          let playerCount := st.players.countP (fun p => p.role == "player")
          if playerCount ≥ 8 then
            if st.room.state = "waiting" then
              let specCount := st.players.countP (fun p => p.role == "spectator")
              if specCount < 5 then addNew "spectator"
              else (st, .err "Room is full for players and spectators.")
            else (st, .err "Room is full for players.")
          else addNew "player"

/-- Reply of gameService.handleRejoinGame. -/
inductive RejoinOutcome where
  | ok (playerRole roomState : String)
  | err (msg : String)
  deriving DecidableEq, Repr

/-- gameService.handleRejoinGame (the game:rejoin event). -/
def handleRejoinGame (st : GameState) (uid : String) : GameState × RejoinOutcome :=
  if st.roomExists = false then (st, .err "Room not found for rejoin.")
  else
    match getPlayer st uid with
    | none => (st, .err "Player not found in room records. Cannot rejoin.")
    | some _ =>
      if st.room.state = "active" then
        let k := jsIndexOf st.room.activeTurnOrderUids uid
        let role :=
          if k = -1 then "spectator"
          else if k < st.room.currentPlayerIndexInOrder ∨
              (k = st.room.currentPlayerIndexInOrder ∧ st.room.currentTurnUid ≠ some uid) then
            "spectator"
          else "player"
        (setOnlineRole st uid true role, .ok role "active")
      else if st.room.state = "waiting" ∨ st.room.state = "ended" then
        (setOnlineRole st uid true "player", .ok "player" st.room.state)
      else (st, .err "Room is in an unknown state.")

/-- gameService.cleanupOnDisconnect restricted to one room: mark the
player offline in an active room and simulate the pending timeout if the
player held the turn or the steal. -/
def cleanupOnDisconnectRoom (st : GameState) (uid : String) : GameState :=
  if ¬ (st.roomExists = true ∧ st.room.state = "active") then st
  else
    match getPlayer st uid with
    | none => st
    | some p =>
      if p.online = false then st
      else
        let st1 := setOnline st uid false
        let q? := getQuestion st1 st1.room.currentQuestionDbIndex
        if st1.room.currentTurnUid = some uid then
          match q? with
          | some q => (submitAnswer st1 uid q.id (-1) true).1
          | none =>
            match findNextOnlinePlayer st1 (some uid) with
            | some (nu, ni) =>
              if nu ≠ "" then
                (setupNextTurnOrEndGame st1 nu ni (st1.room.currentQuestionDbIndex + 1)).1
              else st1
            | none => st1
        else
          match st1.room.currentStealAttempt with
          | some sa =>
            if sa.stealerUid = uid then
              match q? with
              | some q => (handleSteal st1 uid q.id (-1) true).1
              | none =>
                match findNextOnlinePlayer st1 st1.room.currentTurnUid with
                | some (nu, ni) =>
                  if nu ≠ "" then
                    (setupNextTurnOrEndGame st1 nu ni (st1.room.currentQuestionDbIndex + 1)).1
                  else st1
                | none => st1
            else st1
          | none => st1

/-- The combined effect of a socket disconnect on one room: the
roomHandlers disconnecting listener performs a full leave for non-active
rooms, then the gameHandlers disconnecting listener runs
cleanupOnDisconnect (a no-op for non-active rooms). -/
def disconnectOp (st : GameState) (uid : String) : GameState :=
  let st1 :=
    if st.roomExists = true ∧ st.room.state ≠ "active" then (leaveRoomSvc st uid).1
    else st
  cleanupOnDisconnectRoom st1 uid

/-- Settings override passed to startGame (absent fields are undefined). -/
structure SettingsPatch where
  questionsPerPlayer : Option Nat := none
  turnTimeoutSec : Option Nat := none
  stealTimeoutSec : Option Nat := none
  allowSteal : Option Bool := none
  bonusForSteal : Option Nat := none
  deriving DecidableEq, Repr

/-- JavaScript a or-else b for numbers: 0 is falsy. -/
def jsOr (v fb : Nat) : Nat := if v = 0 then fb else v

/-- JavaScript x or-else fb where x may be undefined. -/
def jsOrOpt (x : Option Nat) (fb : Nat) : Nat :=
  match x with
  | some v => jsOr v fb
  | none => fb

/-- The settings merge at the top of startGame (override, then existing
room settings, then defaults; numeric fields use JavaScript or-else so a
zero falls through, boolean and bonus fields use explicit undefined
checks). -/
def mergeSettings (ex : GameSettings) (s : SettingsPatch) : GameSettings :=
  { questionsPerPlayer := jsOrOpt s.questionsPerPlayer (jsOr ex.questionsPerPlayer 5),
    turnTimeoutSec := jsOrOpt s.turnTimeoutSec (jsOr ex.turnTimeoutSec 30),
    stealTimeoutSec := jsOrOpt s.stealTimeoutSec (jsOr ex.stealTimeoutSec 15),
    allowSteal := s.allowSteal.getD ex.allowSteal,
    bonusForSteal := s.bonusForSteal.getD ex.bonusForSteal }

/-- batchStoreQuestions: the new question documents overwrite ids 0 .. k-1;
old documents beyond that persist (Firestore set per document). -/
def storeQuestions (old new : List Question) : List Question :=
  new ++ old.drop new.length

/-- The atomic batch committed by startGame: store the shuffled questions,
reset the participating players to score 0, and move the room to the
active game position. -/
def startedState (st : GameState) (gs : GameSettings) (total : Nat)
    (stored : List Question) (order : List String) (first : String) : GameState :=
  { st with
    questions := storeQuestions st.questions stored,
    players := st.players.map (fun p =>
      if p.online && p.role == "player" then { p with score := 0 } else p),
    room := { st.room with
      state := "active",
      currentQuestionDbIndex := 0,
      questionCount := total,
      currentTurnUid := some first,
      activeTurnOrderUids := order,
      currentPlayerIndexInOrder := 0,
      currentStealAttempt := none,
      gameSettings := gs } }

/-- gameService.startGame.  The trivia provider and the shuffle are
external collaborators; items is the list of question documents built from
the provider response (one per fetched item, options already shuffled).
startGame re-stamps their ids with the stringified index, exactly as
questionsToStore does.  No check of the room state and no check of the
caller is performed, mirroring the source. -/
def startGame (st : GameState) (settings : SettingsPatch) (items : List Question) :
    GameState × GameResult :=
  if st.roomExists = false then (st, .error "Room not found.")
  else
    let participants := st.players.filter (fun p => p.online && p.role == "player")
    if participants.length < 2 then
      (st, .error "At least two online player role users are required to start the game.")
    else
      let gs := mergeSettings st.room.gameSettings settings
      let total := participants.length * gs.questionsPerPlayer
      if items.length < total then (st, .error "Not enough questions fetched.")
      else
        let stored := items.mapIdx (fun i q => { q with id := toString i })
        let order := participants.map (fun p => p.uid)
        let first := order.headD ""
        let st1 := startedState st gs total stored order first
        match getQuestion st1 0 with
        | none => (st1, .error "Failed to load first question.")
        | some _ => (st1, .nextTurn first 1)

/-- The recovery block of the timer callback catch handler (roomData is
the state read at the start of the callback; the engine guards throw
before any write, so it is unchanged). -/
def timerRecovery (st : GameState) (phase : String) (uidForTimeout : String) : GameState :=
  let nextQ := st.room.currentQuestionDbIndex + 1
  if phase = "steal" then
    let k := jsIndexOf st.room.activeTurnOrderUids uidForTimeout
    if uidForTimeout ≠ "" ∧ k ≠ -1 then
      (setupNextTurnOrEndGame st uidForTimeout k.toNat nextQ).1
    else endNoClear st
  else
    match findNextOnlinePlayer st (some uidForTimeout) with
    | some (nu, ni) =>
      if nu ≠ "" then (setupNextTurnOrEndGame st nu ni nextQ).1
      else endNoClear st
    | none => endNoClear st

/-- The timer callback body of scheduleGameTimeout: re-read state, drop
the firing silently when stale, otherwise synthesize a timeout submission;
on a thrown error run the recovery block. -/
def timerFire (st : GameState) (phase : String) (capturedQid capturedUid : String) : GameState :=
  if ¬ (st.roomExists = true ∧ st.room.state = "active") then st
  else
    let expectedUid : Option String :=
      if phase = "turn" then st.room.currentTurnUid
      else
        match st.room.currentStealAttempt with
        | some sa => some sa.stealerUid
        | none => none
    match getQuestion st st.room.currentQuestionDbIndex with
    | none => st
    | some q =>
      if q.id ≠ capturedQid ∨ some capturedUid ≠ expectedUid then st
      else
        let out :=
          if phase = "turn" then submitAnswer st capturedUid capturedQid (-1) true
          else handleSteal st capturedUid capturedQid (-1) true
        match out.2 with
        | .error _ => timerRecovery st phase capturedUid
        | _ => out.1

/-- One item of the trivia-provider response used by startGame. -/
structure TriviaItem where
  question : String
  correct_answer : String
  incorrect_answers : List String
  deriving DecidableEq, Repr

/-- One step of a comparison sort whose comparator is the random function
passed by startGame (0.5 - random(), negative or positive each with
probability one half, zero with probability zero): insert x into the
already processed prefix, consuming one fair coin flip per comparison
(true means the comparator came out negative, x stays in front). Engines
sort short arrays with insertion sort, so this models the library sort the
code calls. -/
def insertFlips (x : String) : List String → List Bool → List String × List Bool
  | [], fs => ([x], fs)
  | y :: ys, [] => (x :: y :: ys, [])
  | y :: ys, f :: fs =>
    if f then (x :: y :: ys, fs)
    else
      let (r, fs2) := insertFlips x ys fs
      (y :: r, fs2)

/-- Insertion sort driven by a list of coin flips. -/
def isortFlips : List String → List Bool → List String × List Bool
  | [], fs => ([], fs)
  | x :: xs, fs =>
    let (r, fs1) := isortFlips xs fs
    insertFlips x r fs1

/-- The shuffle expression of startGame,
options.sort(() => 0.5 - Math.random()), as a function of the stream of
comparator outcomes. -/
def sortShuffle (fs : List Bool) (l : List String) : List String :=
  (isortFlips l fs).1

/-- All coin-flip sequences of a given length (each has probability
2 to the minus n; sorting four options uses at most six comparisons, so
enumerating length-6 sequences weights every sort outcome exactly). -/
def allFlips : Nat → List (List Bool)
  | 0 => [[]]
  | n + 1 => (allFlips n).flatMap (fun l => [true :: l, false :: l])

/-- The question document built by startGame from one fetched item: the
options are incorrect_answers with the correct answer appended, passed
through the random-comparator sort, and correctIndex is indexOf of the
correct answer in the shuffled options. -/
def mkStoredQuestion (idx : Nat) (item : TriviaItem) (fs : List Bool) : Question :=
  let options := sortShuffle fs (item.incorrect_answers ++ [item.correct_answer])
  { id := toString idx,
    text := item.question,
    options := options,
    correctIndex := (jsIndexOf options item.correct_answer).toNat }

/-- Number of length-6 flip sequences under which the code stores a given
permutation as the options of a standard four-option item. -/
def shuffleCount (item : TriviaItem) (p : List String) : Nat :=
  (allFlips 6).countP (fun fs => (mkStoredQuestion 0 item fs).options == p)

/-- The state created by roomService.createRoom: a waiting room with the
host as the only player. -/
def initialState (hostUid hostName : String) : GameState :=
  { roomExists := true,
    room :=
      { hostUid := hostUid,
        state := "waiting",
        questionCount := 0,
        currentQuestionDbIndex := 0,
        currentTurnUid := none,
        activeTurnOrderUids := [],
        currentPlayerIndexInOrder := -1,
        currentStealAttempt := none,
        gameSettings := ⟨5, 30, 15, true, 1⟩ },
    players := [⟨hostUid, hostName, 1, 0, true, "player"⟩],
    questions := [] }

/-- The inductive invariant behind the turn-order claim: player uids are
pairwise distinct, and while the room document exists and the game is
active, the turn order has no duplicates and the current index is in
bounds (in particular the order is non-empty). -/
def Inv (st : GameState) : Prop :=
  (st.players.map Player.uid).Nodup ∧
  (st.roomExists = true → st.room.state = "active" →
    st.room.activeTurnOrderUids.Nodup ∧
    0 ≤ st.room.currentPlayerIndexInOrder ∧
    st.room.currentPlayerIndexInOrder < (st.room.activeTurnOrderUids.length : Int))

theorem inv_mapPlayers {st : GameState} {f : Player → Player}
    (hf : ∀ p, (f p).uid = p.uid) (h : Inv st) :
    Inv { st with players := st.players.map f } := by
  obtain ⟨h1, h2⟩ := h
  refine ⟨?_, h2⟩
  rw [List.map_map]
  have : Player.uid ∘ f = Player.uid := funext hf
  rw [this]
  exact h1

theorem inv_setOnline {st : GameState} {u : String} {b : Bool} (h : Inv st) :
    Inv (setOnline st u b) :=
  inv_mapPlayers (fun p => by by_cases hp : p.uid == u <;> simp [hp]) h

theorem inv_setRole {st : GameState} {u r : String} (h : Inv st) :
    Inv (setRole st u r) :=
  inv_mapPlayers (fun p => by by_cases hp : p.uid == u <;> simp [hp]) h

theorem inv_setOnlineRole {st : GameState} {u : String} {b : Bool} {r : String} (h : Inv st) :
    Inv (setOnlineRole st u b r) :=
  inv_mapPlayers (fun p => by by_cases hp : p.uid == u <;> simp [hp]) h

theorem inv_incScore {st : GameState} {u : String} {n : Nat} (h : Inv st) :
    Inv (incScore st u n) :=
  inv_mapPlayers (fun p => by by_cases hp : p.uid == u <;> simp [hp]) h

theorem inv_markOffline {st : GameState} {u : String} (h : Inv st) :
    Inv (markOffline st u) := by
  unfold markOffline
  split
  · split
    · exact inv_setOnline h
    · exact h
  · exact h

theorem markOffline_room (st : GameState) (u : String) :
    (markOffline st u).room = st.room := by
  unfold markOffline
  split <;> first | rfl | (split <;> rfl)

theorem markOffline_roomExists (st : GameState) (u : String) :
    (markOffline st u).roomExists = st.roomExists := by
  unfold markOffline
  split <;> first | rfl | (split <;> rfl)

theorem inv_endNoClear {st : GameState} (h : Inv st) : Inv (endNoClear st) := by
  refine ⟨h.1, ?_⟩
  intro _ hact
  exact absurd hact (by simp [endNoClear])

theorem inv_setSteal {st : GameState} (sa : Option StealAttempt) (h : Inv st) :
    Inv { st with room := { st.room with currentStealAttempt := sa } } :=
  ⟨h.1, h.2⟩

theorem inv_finishSetup {st : GameState} {uid : String} {idx newQ : Nat}
    (h : Inv st) (hidx : idx < st.room.activeTurnOrderUids.length) :
    Inv (finishSetup st uid idx newQ).1 := by
  refine ⟨h.1, ?_⟩
  intro hex hact
  have hb := h.2 hex hact
  refine ⟨hb.1, ?_, ?_⟩
  · simp [finishSetup]
  · simp only [finishSetup]
    exact_mod_cast hidx

theorem inv_setup {st : GameState} {newUid : String} {newIdx newQ : Nat}
    (h : Inv st) (hidx : newIdx < st.room.activeTurnOrderUids.length) :
    Inv (setupNextTurnOrEndGame st newUid newIdx newQ).1 := by
  unfold setupNextTurnOrEndGame
  split
  · exact ⟨h.1, fun _ hact => absurd hact (by simp)⟩
  · split
    · exact inv_endNoClear h
    · split
      · exact inv_finishSetup h hidx
      · split
        · exact inv_endNoClear h
        · next _ _ _ hfind => exact inv_finishSetup h (findNextOnlinePlayer_lt hfind)

theorem inv_advanceAfter {st : GameState} {uid : String} {newQ : Nat} (h : Inv st) :
    Inv (advanceAfter st uid newQ).1 := by
  unfold advanceAfter
  split
  · exact inv_endNoClear h
  · next _ _ hfind => exact inv_setup h (findNextOnlinePlayer_lt hfind)

theorem inv_submitAnswer {st : GameState} {uid qid : String} {ai : Int} {isT : Bool}
    (h : Inv st) : Inv (submitAnswer st uid qid ai isT).1 := by
  simp only [submitAnswer]
  split
  · exact h
  split
  · exact h
  split
  · exact h
  split
  · split <;> exact h
  next q _ =>
    split
    · exact inv_advanceAfter (inv_incScore h)
    · split
      · exact inv_advanceAfter h
      · split
        · exact inv_setSteal _ h
        · exact inv_advanceAfter h

theorem inv_handleSteal {st : GameState} {uid qid : String} {ai : Int} {isT : Bool}
    (h : Inv st) : Inv (handleSteal st uid qid ai isT).1 := by
  simp only [handleSteal]
  split
  · exact h
  split
  · split <;> exact h
  split
  · exact h
  next q _ =>
    split
    · split
      · exact inv_endNoClear (inv_incScore h)
      · exact inv_endNoClear h
    next hk =>
      have hb := (jsIndexOf_nonneg_lt hk).2
      split
      · exact inv_setup (inv_incScore h) hb
      · exact inv_setup h hb

theorem jsIndexOf_ne_neg_one_of_mem {l : List String} {x : String}
    (h : x ∈ l) : jsIndexOf l x ≠ -1 := by
  unfold jsIndexOf
  cases hi : l.indexOf? x with
  | none =>
    exfalso
    have := List.indexOf?_eq_none_iff.mp hi x h
    simp at this
  | some i =>
    intro hc
    have h0 : (0 : Int) ≤ (i : Int) := Int.natCast_nonneg i
    change (i : Int) = -1 at hc
    omega

theorem removeFromOrder_players (st : GameState) (uid : String) :
    (removeFromOrder st uid).players = st.players := by
  simp only [removeFromOrder]
  split <;> rfl

theorem inv_endInsufficient {st : GameState}
    (h1 : (st.players.map Player.uid).Nodup) : Inv (endInsufficient st) :=
  ⟨h1, fun _ hact => absurd hact (by simp [endInsufficient])⟩

theorem inv_endQuestionMissing {st : GameState}
    (h1 : (st.players.map Player.uid).Nodup) : Inv (endQuestionMissing st) :=
  ⟨h1, fun _ hact => absurd hact (by simp [endQuestionMissing])⟩

theorem inv_removeFromOrder {st : GameState} {uid : String} (h : Inv st)
    (hex : st.roomExists = true) (hact : st.room.state = "active")
    (hlen2 : 2 ≤ (removeFromOrder st uid).room.activeTurnOrderUids.length) :
    Inv (removeFromOrder st uid) := by
  have hbase := h.2 hex hact
  simp only [removeFromOrder] at hlen2 ⊢
  by_cases hrem :
      (st.room.activeTurnOrderUids.filter (fun x => x != uid)).length <
        st.room.activeTurnOrderUids.length
  · rw [if_pos hrem] at hlen2 ⊢
    dsimp only at hlen2
    have hmem : uid ∈ st.room.activeTurnOrderUids := by
      by_contra hnm
      have heq : st.room.activeTurnOrderUids.filter (fun x => x != uid)
          = st.room.activeTurnOrderUids := by
        apply List.filter_eq_self.mpr
        intro a ha
        simp only [bne_iff_ne, ne_eq, decide_eq_true_eq]
        intro hax
        exact hnm (hax ▸ ha)
      rw [heq] at hrem
      exact absurd hrem (lt_irrefl _)
    have hlenEq : (st.room.activeTurnOrderUids.filter (fun x => x != uid)).length
        = st.room.activeTurnOrderUids.length - 1 := by
      rw [← List.Nodup.erase_eq_filter hbase.1 uid]
      exact List.length_erase_of_mem hmem
    have hne := jsIndexOf_ne_neg_one_of_mem hmem
    have hIdxB := jsIndexOf_nonneg_lt hne
    have hcur0 : 0 ≤ st.room.currentPlayerIndexInOrder := hbase.2.1
    have hcur1 : st.room.currentPlayerIndexInOrder <
        (st.room.activeTurnOrderUids.length : Int) := hbase.2.2
    refine ⟨h.1, fun _ _ => ⟨List.Nodup.filter _ hbase.1, ?_⟩⟩
    dsimp only
    split
    next hcond => omega
    next hcond =>
      have h5 : ¬ (jsIndexOf st.room.activeTurnOrderUids uid ≤
          st.room.currentPlayerIndexInOrder ∧ st.room.currentPlayerIndexInOrder > 0) :=
        fun hc => hcond ⟨hne, hc.1, hc.2⟩
      rw [not_and_or] at h5
      rcases h5 with hc | hc <;> omega
  · rw [if_neg hrem]
    exact h

theorem inv_handlePlayerLeave {st : GameState} {uid : String} (h : Inv st) :
    Inv (handlePlayerLeave st uid) := by
  simp only [handlePlayerLeave]
  split
  · exact h
  next hg =>
    rw [not_not] at hg
    have hInv1 : Inv (markOffline st uid) := inv_markOffline h
    have hex1 : (markOffline st uid).roomExists = true := by
      rw [markOffline_roomExists]
      exact hg.1
    have hact1 : (markOffline st uid).room.state = "active" := by
      rw [markOffline_room]
      exact hg.2
    have h2players :
        ((removeFromOrder (markOffline st uid) uid).players.map Player.uid).Nodup := by
      rw [removeFromOrder_players]
      exact hInv1.1
    split
    next hcnt => exact inv_endInsufficient h2players
    next hcnt =>
      have hlen2 :
          2 ≤ (removeFromOrder (markOffline st uid) uid).room.activeTurnOrderUids.length := by
        have hle := List.countP_le_length
          (fun pid => isOnlinePlayer (removeFromOrder (markOffline st uid) uid) pid)
          (l := (removeFromOrder (markOffline st uid) uid).room.activeTurnOrderUids)
        omega
      have hInv2 : Inv (removeFromOrder (markOffline st uid) uid) :=
        inv_removeFromOrder hInv1 hex1 hact1 hlen2
      split
      · exact inv_endQuestionMissing hInv2.1
      next q hq =>
        split
        · exact inv_submitAnswer hInv2
        · split
          · split
            · exact inv_handleSteal hInv2
            · exact hInv2
          · exact hInv2

theorem inv_leaveRoomSvc {st : GameState} {uid : String} (h : Inv st) :
    Inv (leaveRoomSvc st uid).1 := by
  have hst1 : Inv { st with players := st.players.filter (fun p => p.uid ≠ uid) } := by
    refine ⟨?_, h.2⟩
    exact ((List.filter_sublist st.players).map Player.uid).nodup h.1
  simp only [leaveRoomSvc]
  split
  · exact h
  · split
    · exact ⟨hst1.1, fun hex => absurd hex (by simp)⟩
    · split
      · split
        · split
          · exact inv_setRole ⟨hst1.1, hst1.2⟩
          · exact ⟨hst1.1, hst1.2⟩
        · exact ⟨hst1.1, fun hex => absurd hex (by simp)⟩
      · exact hst1

theorem inv_voluntaryLeave {st : GameState} {uid : String} (h : Inv st) :
    Inv (voluntaryLeave st uid) := by
  simp only [voluntaryLeave]
  split
  · exact inv_handlePlayerLeave (inv_leaveRoomSvc h)
  · exact inv_leaveRoomSvc h

theorem inv_joinRoomSvc {st : GameState} {uid name : String} (h : Inv st) :
    Inv (joinRoomSvc st uid name).1 := by
  simp only [joinRoomSvc]
  split
  · exact h
  split
  · exact h
  split
  next p hfind => exact inv_setOnlineRole h
  next hfind =>
    have hnm : uid ∉ st.players.map Player.uid := by
      intro hm
      rcases List.mem_map.mp hm with ⟨p, hp, hpu⟩
      have hnone := List.find?_eq_none.mp hfind p hp
      simp [hpu] at hnone
    have happ : ((st.players ++
        ([⟨uid, name, st.players.length + 1, 0, true, "spectator"⟩] : List Player)).map
          Player.uid).Nodup ∧
        ((st.players ++
        ([⟨uid, name, st.players.length + 1, 0, true, "player"⟩] : List Player)).map
          Player.uid).Nodup := by
      constructor <;>
      · rw [List.map_append, List.nodup_append]
        refine ⟨h.1, List.nodup_singleton _, ?_⟩
        intro a ha hb
        simp at hb
        exact hnm (hb ▸ ha)
    split
    · exact h
    split
    · split
      · exact h
      · exact ⟨happ.1, h.2⟩
    · split
      · split
        · split
          · exact ⟨happ.1, h.2⟩
          · exact h
        · exact h
      · exact ⟨happ.2, h.2⟩

theorem inv_handleRejoinGame {st : GameState} {uid : String} (h : Inv st) :
    Inv (handleRejoinGame st uid).1 := by
  simp only [handleRejoinGame]
  split
  · exact h
  split
  · exact h
  · split
    · exact inv_setOnlineRole h
    split
    · exact inv_setOnlineRole h
    · exact h

theorem inv_cleanupOnDisconnectRoom {st : GameState} {uid : String} (h : Inv st) :
    Inv (cleanupOnDisconnectRoom st uid) := by
  simp only [cleanupOnDisconnectRoom]
  split
  · exact h
  split
  · exact h
  next p hp =>
    split
    · exact h
    · have h1 : Inv (setOnline st uid false) := inv_setOnline h
      split
      · split
        · exact inv_submitAnswer h1
        · split
          next _ _ hfind =>
            split
            · exact inv_setup h1 (findNextOnlinePlayer_lt hfind)
            · exact h1
          next => exact h1
      · split
        next sa =>
          split
          · split
            · exact inv_handleSteal h1
            · split
              next _ _ hfind =>
                split
                · exact inv_setup h1 (findNextOnlinePlayer_lt hfind)
                · exact h1
              next => exact h1
          · exact h1
        next => exact h1

theorem inv_disconnectOp {st : GameState} {uid : String} (h : Inv st) :
    Inv (disconnectOp st uid) := by
  simp only [disconnectOp]
  split
  · exact inv_cleanupOnDisconnectRoom (inv_leaveRoomSvc h)
  · exact inv_cleanupOnDisconnectRoom h

theorem inv_startedState {st : GameState} {gs : GameSettings} {total : Nat}
    {stored : List Question} {order : List String} {first : String}
    (h : Inv st) (hord : order.Nodup) (hlen : 0 < order.length) :
    Inv (startedState st gs total stored order first) := by
  refine ⟨?_, fun _ _ => ⟨hord, by simp [startedState], ?_⟩⟩
  · simp only [startedState, List.map_map]
    have : Player.uid ∘ (fun p =>
        if p.online && p.role == "player" then { p with score := 0 } else p) = Player.uid := by
      funext p
      simp only [Function.comp]
      split <;> rfl
    rw [this]
    exact h.1
  · simp only [startedState]
    exact_mod_cast hlen

theorem inv_startGame {st : GameState} {settings : SettingsPatch} {items : List Question}
    (h : Inv st) : Inv (startGame st settings items).1 := by
  simp only [startGame]
  split
  · exact h
  split
  · exact h
  next h2 =>
    split
    · exact h
    · have hord : ((st.players.filter (fun p => p.online && p.role == "player")).map
          Player.uid).Nodup :=
        ((List.filter_sublist st.players).map Player.uid).nodup h.1
      have hlen : 0 < ((st.players.filter (fun p => p.online && p.role == "player")).map
          Player.uid).length := by
        rw [List.length_map]
        omega
      split
      · exact inv_startedState h hord hlen
      · exact inv_startedState h hord hlen

theorem inv_timerRecovery {st : GameState} {phase uidT : String} (h : Inv st) :
    Inv (timerRecovery st phase uidT) := by
  simp only [timerRecovery]
  split
  · split
    next hc => exact inv_setup h (jsIndexOf_nonneg_lt hc.2).2
    next => exact inv_endNoClear h
  · split
    next _ _ hfind =>
      split
      · exact inv_setup h (findNextOnlinePlayer_lt hfind)
      · exact inv_endNoClear h
    next => exact inv_endNoClear h

theorem inv_timerFire {st : GameState} {phase qid uidT : String} (h : Inv st) :
    Inv (timerFire st phase qid uidT) := by
  simp only [timerFire]
  split
  · exact h
  · by_cases hp : phase = "turn"
    · simp only [if_pos hp]
      split
      · exact h
      · split
        · exact h
        · split <;>
            first
            | exact inv_timerRecovery h
            | exact inv_submitAnswer h
    · simp only [if_neg hp]
      split
      · exact h
      · split
        · exact h
        · split <;>
            first
            | exact inv_timerRecovery h
            | exact inv_handleSteal h

theorem inv_initialState (hostUid hostName : String) :
    Inv (initialState hostUid hostName) := by
  refine ⟨by simp [initialState], fun _ hact => absurd hact (by simp [initialState])⟩

/-- The reachable states of one room: created by createRoom and then
transformed by any sequence of the modelled operations (game start,
answer and steal submissions including timer-synthesized ones, voluntary
leaves, disconnects, rejoins, joins, timer callbacks). -/
inductive Reachable : GameState → Prop
  | init (hostUid hostName : String) : Reachable (initialState hostUid hostName)
  | start (st : GameState) (settings : SettingsPatch) (items : List Question) :
      Reachable st → Reachable (startGame st settings items).1
  | answer (st : GameState) (uid qid : String) (ai : Int) (isT : Bool) :
      Reachable st → Reachable (submitAnswer st uid qid ai isT).1
  | steal (st : GameState) (uid qid : String) (ai : Int) (isT : Bool) :
      Reachable st → Reachable (handleSteal st uid qid ai isT).1
  | leave (st : GameState) (uid : String) :
      Reachable st → Reachable (voluntaryLeave st uid)
  | disconnect (st : GameState) (uid : String) :
      Reachable st → Reachable (disconnectOp st uid)
  | rejoin (st : GameState) (uid : String) :
      Reachable st → Reachable (handleRejoinGame st uid).1
  | join (st : GameState) (uid name : String) :
      Reachable st → Reachable (joinRoomSvc st uid name).1
  | timer (st : GameState) (phase qid uidT : String) :
      Reachable st → Reachable (timerFire st phase qid uidT)

theorem reachable_inv {st : GameState} (h : Reachable st) : Inv st := by
  induction h with
  | init hostUid hostName => exact inv_initialState hostUid hostName
  | start _ _ _ _ ih => exact inv_startGame ih
  | answer _ _ _ _ _ _ ih => exact inv_submitAnswer ih
  | steal _ _ _ _ _ _ ih => exact inv_handleSteal ih
  | leave _ _ _ ih => exact inv_voluntaryLeave ih
  | disconnect _ _ _ ih => exact inv_disconnectOp ih
  | rejoin _ _ _ ih => exact inv_handleRejoinGame ih
  | join _ _ _ _ ih => exact inv_joinRoomSvc ih
  | timer _ _ _ _ _ ih => exact inv_timerFire ih

/-! Concrete fixtures: rooms and games built by running the modelled
operations from a fresh room, used as witnesses and counterexamples. -/

/-- A standard four-option question with the correct option first. -/
def demoQuestion (i : Nat) : Question := ⟨toString i, "sample question", ["a", "b", "c", "d"], 0⟩

def demoItems (n : Nat) : List Question := (List.range n).map demoQuestion

/-- One question per player. -/
def demoPatch : SettingsPatch := { questionsPerPlayer := some 1 }

def lobby1 : GameState := initialState "h" "Host"

def lobby2 : GameState := (joinRoomSvc lobby1 "b" "Bob").1

def lobby3 : GameState := (joinRoomSvc lobby2 "c" "Carol").1

/-- Three-player active game on three questions, first turn h. -/
def demoActive : GameState := (startGame lobby3 demoPatch (demoItems 3)).1

/-- demoActive after h answered question 0 incorrectly: steal pending for
b on question 0, currentTurnUid still h. -/
def stealPending : GameState := (submitAnswer demoActive "h" "0" 1 false).1

/-- Two-player active game on two questions. -/
def duo : GameState := (startGame lobby2 demoPatch (demoItems 2)).1

/-- duo after h answered question 0 correctly: turn b on question 1 (the
last question). -/
def duoMid : GameState := (submitAnswer duo "h" "0" 0 false).1

/-- duoMid after b answered the last question incorrectly: steal pending
for h on question 1. -/
def duoSteal : GameState := (submitAnswer duoMid "b" "1" 3 false).1

/-- A spectator joins the running two-player game. -/
def specJoined : GameState := (joinRoomSvc duo "s" "Sam").1

/-- The spectator disconnects (marked offline, role kept). -/
def specOffline : GameState := disconnectOp specJoined "s"

def specMid : GameState := (submitAnswer specOffline "h" "0" 0 false).1

/-- The game played to the end while the spectator is offline. -/
def specEnded : GameState := (submitAnswer specMid "b" "1" 0 false).1

/-- Run a sequence of joins. -/
def joinAll (st : GameState) : List String → GameState
  | [] => st
  | u :: us => joinAll (joinRoomSvc st u u).1 us

theorem reachable_joinAll (l : List String) (st : GameState) (h : Reachable st) :
    Reachable (joinAll st l) := by
  induction l generalizing st with
  | nil => exact h
  | cons u us ih => exact ih _ (Reachable.join st u u h)

/-- A waiting room filled to capacity: 8 player-role users and 5
spectators. -/
def fullLobby : GameState :=
  joinAll lobby1 ["p2", "p3", "p4", "p5", "p6", "p7", "p8", "s1", "s2", "s3", "s4", "s5"]

theorem reachable_lobby3 : Reachable lobby3 :=
  Reachable.join lobby2 "c" "Carol"
    (Reachable.join lobby1 "b" "Bob" (Reachable.init "h" "Host"))

theorem reachable_demoActive : Reachable demoActive :=
  Reachable.start lobby3 demoPatch (demoItems 3) reachable_lobby3

theorem reachable_stealPending : Reachable stealPending :=
  Reachable.answer demoActive "h" "0" 1 false reachable_demoActive

theorem reachable_duo : Reachable duo :=
  Reachable.start lobby2 demoPatch (demoItems 2)
    (Reachable.join lobby1 "b" "Bob" (Reachable.init "h" "Host"))

theorem reachable_duoSteal : Reachable duoSteal :=
  Reachable.answer duoMid "b" "1" 3 false
    (Reachable.answer duo "h" "0" 0 false reachable_duo)

theorem reachable_specEnded : Reachable specEnded :=
  Reachable.answer specMid "b" "1" 0 false
    (Reachable.answer specOffline "h" "0" 0 false
      (Reachable.disconnect specJoined "s"
        (Reachable.join duo "s" "Sam" reachable_duo)))

theorem reachable_fullLobby : Reachable fullLobby :=
  reachable_joinAll _ _ (Reachable.init "h" "Host")

/-- find? after an update that rewrites the found player but keeps uids. -/
theorem find?_update_self (ps : List Player) (u : String) (g : Player → Player)
    (hg : ∀ p, (g p).uid = p.uid) :
    (ps.map (fun p => if p.uid == u then g p else p)).find? (fun p => p.uid == u)
      = (ps.find? (fun p => p.uid == u)).map g := by
  induction ps with
  | nil => rfl
  | cons a as ih =>
    cases hau : (a.uid == u) with
    | true =>
      have hga : ((g a).uid == u) = true := by rw [hg]; exact hau
      rw [List.map_cons, if_pos hau]
      simp [List.find?, hga, hau]
    | false =>
      rw [List.map_cons, if_neg (by simp [hau])]
      simp only [List.find?, hau]
      exact ih

theorem getPlayer_incScore (st : GameState) (u : String) (n : Nat) :
    getPlayer (incScore st u n) u
      = (getPlayer st u).map (fun p => { p with score := p.score + n }) := by
  unfold getPlayer incScore
  exact find?_update_self st.players u _ (fun p => rfl)

theorem isOnlinePlayer_incScore (st : GameState) (u : String) (n : Nat) :
    isOnlinePlayer (incScore st u n) u = isOnlinePlayer st u := by
  unfold isOnlinePlayer
  rw [getPlayer_incScore]
  cases getPlayer st u <;> rfl

/-- C3: in every reachable state of a room produced by any sequence of the
modelled operations (startGame, submitAnswer, submitSteal, voluntary
leave, disconnect, rejoin, join, timer firings), while state is active the
bound 0 le currentPlayerIndexInOrder lt length activeTurnOrderUids holds
and activeTurnOrderUids is non-empty. -/
theorem c3_active_index_in_bounds (st : GameState) (h : Reachable st)
    (hex : st.roomExists = true) (hact : st.room.state = "active") :
    0 ≤ st.room.currentPlayerIndexInOrder ∧
    st.room.currentPlayerIndexInOrder < (st.room.activeTurnOrderUids.length : Int) ∧
    st.room.activeTurnOrderUids ≠ [] := by
  have hb := (reachable_inv h).2 hex hact
  refine ⟨hb.2.1, hb.2.2, ?_⟩
  have hpos : 0 < st.room.activeTurnOrderUids.length := by
    have h1 := hb.2.1
    have h2 := hb.2.2
    omega
  exact List.ne_nil_of_length_pos hpos

/-- Witness for C3 at a concrete reachable active three-player game. -/
theorem c3_active_index_in_bounds_witness :
    0 ≤ demoActive.room.currentPlayerIndexInOrder ∧
    demoActive.room.currentPlayerIndexInOrder <
      (demoActive.room.activeTurnOrderUids.length : Int) ∧
    demoActive.room.activeTurnOrderUids ≠ [] :=
  c3_active_index_in_bounds demoActive reachable_demoActive (by decide) (by decide)

/-- The ended room with a dangling steal attempt reached when the pending
stealer voluntarily leaves mid-steal: handleSteal then ends the game
through the stealer-not-in-order branch without clearing
currentStealAttempt. -/
def c4End : GameState := voluntaryLeave stealPending "b"

/-- C4 (counterexample): a reachable room state that is ended while
currentStealAttempt is non-null, refuting the claim that every operation
that sets state to ended leaves currentStealAttempt null. -/
theorem c4_counterexample :
    Reachable c4End ∧ c4End.room.state = "ended" ∧
    c4End.room.currentStealAttempt = some ⟨"b", 0⟩ :=
  ⟨Reachable.leave stealPending "b" reachable_stealPending, by decide, by decide⟩

/-- C4 (amended): only the end-of-questions branch of
setupNextTurnOrEndGame and the insufficient-players branch of
handlePlayerLeave clear currentStealAttempt when ending the game; the
other end-of-game paths (question load failure, no substitute,
stealer-not-in-order, no next player), all of which go through endNoClear,
leave currentStealAttempt untouched, so a room can be ended with a
non-null currentStealAttempt. -/
theorem c4_amended (st : GameState) (u : String) (i q : Nat) :
    (st.room.questionCount ≤ q →
      (setupNextTurnOrEndGame st u i q).1.room.state = "ended" ∧
      (setupNextTurnOrEndGame st u i q).1.room.currentStealAttempt = none) ∧
    ((endInsufficient st).room.state = "ended" ∧
      (endInsufficient st).room.currentStealAttempt = none) ∧
    ((endNoClear st).room.state = "ended" ∧
      (endNoClear st).room.currentStealAttempt = st.room.currentStealAttempt) := by
  refine ⟨?_, ⟨rfl, rfl⟩, ⟨rfl, rfl⟩⟩
  intro hq
  unfold setupNextTurnOrEndGame
  rw [if_pos (by omega : q ≥ st.room.questionCount)]
  exact ⟨rfl, rfl⟩

/-- Witness for C4 (amended) at a concrete game. -/
theorem c4_amended_witness :
    (setupNextTurnOrEndGame demoActive "x" 0 5).1.room.state = "ended" ∧
    (setupNextTurnOrEndGame demoActive "x" 0 5).1.room.currentStealAttempt = none :=
  (c4_amended demoActive "x" 0 5).1 (by decide)

theorem stealTimerStale_guardFail {st : GameState} {u : String}
    (h : stealTimerStale st u = true) : stealGuardFail st u = true := by
  unfold stealTimerStale at h
  unfold stealGuardFail
  cases hsa : st.room.currentStealAttempt with
  | none => rfl
  | some sa =>
    rw [hsa] at h
    change (sa.stealerUid != u) = true at h
    change (sa.stealerUid != u || st.room.currentQuestionDbIndex != sa.questionDbIndex) = true
    rw [h]
    rfl

/-- C1 (counterexample): a user submission (isTimeout false) whose
questionId does not match the current question does not return
noActionTaken; it throws (the dispatcher replies with a status error).
The state is still left unchanged. -/
theorem c1_counterexample :
    submitAnswer demoActive "h" "QX" 2 false
      = (demoActive, .error "Question ID mismatch or question not found.") ∧
    (submitAnswer demoActive "h" "QX" 2 false).2 ≠ .noAction :=
  ⟨by decide, by decide⟩

/-- C1 (amended): stale timer callbacks (captured uid no longer the turn
holder, or captured question no longer current) return noActionTaken with
the state unchanged; a user submission with a mismatched questionId, and a
steal submission failing the steal guard, throw an error instead of
returning noActionTaken, also with the state unchanged; a steal timeout
whose stealer no longer matches is dropped with noActionTaken. -/
theorem c1_stale_events (st : GameState) (u qid : String) (ai : Int)
    (hex : st.roomExists = true) (hact : st.room.state = "active") :
    (st.room.currentTurnUid ≠ some u →
      submitAnswer st u qid ai true = (st, .noAction)) ∧
    (st.room.currentTurnUid = some u → questionMismatch st qid = true →
      submitAnswer st u qid ai true = (st, .noAction)) ∧
    (st.room.currentTurnUid = some u → questionMismatch st qid = true →
      submitAnswer st u qid ai false
        = (st, .error "Question ID mismatch or question not found.")) ∧
    (stealTimerStale st u = true →
      handleSteal st u qid ai true = (st, .noAction)) ∧
    (stealGuardFail st u = true →
      handleSteal st u qid ai false
        = (st, .error "Not your turn to steal or steal attempt is stale or invalid.")) := by
  refine ⟨?_, ?_, ?_, ?_, ?_⟩
  · intro hne
    simp [submitAnswer, hex, hact, hne]
  · intro hturn hmm
    simp [submitAnswer, hex, hact, hturn, currentQuestionIfMatch_eq_none hmm]
  · intro hturn hmm
    simp [submitAnswer, hex, hact, hturn, currentQuestionIfMatch_eq_none hmm]
  · intro hstale
    simp [handleSteal, hex, hact, stealTimerStale_guardFail hstale, hstale]
  · intro hgf
    simp [handleSteal, hex, hact, hgf]

/-- Witness for C1 (amended): a stale turn timeout for b while it is the
turn of h is silently dropped with no state change. -/
theorem c1_stale_events_witness :
    submitAnswer demoActive "b" "0" (-1) true = (demoActive, .noAction) :=
  (c1_stale_events demoActive "b" "0" (-1) (by decide) (by decide)).1 (by decide)

/-- C2 (counterexample): startGame succeeds on a room whose state is
ended (the play-again flow depends on this), with no host check anywhere
on the path; this refutes the claim that a game can only be started on a
waiting room. -/
theorem c2_counterexample :
    Reachable specEnded ∧ specEnded.room.state = "ended" ∧
    (startGame specEnded {} (demoItems 2)).2 = .nextTurn "h" 1 ∧
    (startGame specEnded {} (demoItems 2)).1.room.state = "active" :=
  ⟨reachable_specEnded, by decide, by decide, by decide⟩

theorem mergeSettings_qpp_pos (ex : GameSettings) (s : SettingsPatch) :
    0 < (mergeSettings ex s).questionsPerPlayer := by
  unfold mergeSettings jsOrOpt jsOr
  cases s.questionsPerPlayer with
  | none =>
    dsimp only
    split <;> omega
  | some v =>
    dsimp only
    split
    · split <;> omega
    · omega

/-- C2 (amended): startGame fails (with the state unchanged) exactly on a
missing room, fewer than two online player-role participants, or an
insufficient question batch; otherwise it succeeds and activates the room
regardless of the room state (waiting, active or ended) and of the
caller, since neither the service nor the dispatcher checks the host or
the state. -/
theorem c2_startGame_unguarded (st : GameState) (settings : SettingsPatch)
    (items : List Question) :
    ((st.players.filter (fun p => p.online && p.role == "player")).length < 2 →
      (startGame st settings items).1 = st) ∧
    (items.length <
        (st.players.filter (fun p => p.online && p.role == "player")).length *
          (mergeSettings st.room.gameSettings settings).questionsPerPlayer →
      (startGame st settings items).1 = st) ∧
    (st.roomExists = true →
      2 ≤ (st.players.filter (fun p => p.online && p.role == "player")).length →
      (st.players.filter (fun p => p.online && p.role == "player")).length *
          (mergeSettings st.room.gameSettings settings).questionsPerPlayer ≤ items.length →
      (startGame st settings items).1.room.state = "active" ∧
      (startGame st settings items).2 = .nextTurn
        (((st.players.filter (fun p => p.online && p.role == "player")).map
          (fun p => p.uid)).headD "") 1) := by
  refine ⟨?_, ?_, ?_⟩
  · intro hlt
    simp only [startGame]
    split <;> rfl
  · intro hlt
    simp only [startGame]
    split <;> first | rfl | (split <;> rfl)
  · intro hex h2 hitems
    simp only [startGame]
    rw [if_neg (by simp [hex]), if_neg (by omega), if_neg (by omega)]
    have hq0 : ∃ q, getQuestion
        (startedState st (mergeSettings st.room.gameSettings settings)
          ((st.players.filter (fun p => p.online && p.role == "player")).length *
            (mergeSettings st.room.gameSettings settings).questionsPerPlayer)
          (items.mapIdx (fun i q => { q with id := toString i }))
          ((st.players.filter (fun p => p.online && p.role == "player")).map
            (fun p => p.uid))
          (((st.players.filter (fun p => p.online && p.role == "player")).map
            (fun p => p.uid)).headD "")) 0 = some q := by
      have hqpp := mergeSettings_qpp_pos st.room.gameSettings settings
      have hlen : 0 < (items.mapIdx (fun i q => { q with id := toString i })).length := by
        rw [List.length_mapIdx]
        have : 2 * 1 ≤ (st.players.filter (fun p => p.online && p.role == "player")).length *
            (mergeSettings st.room.gameSettings settings).questionsPerPlayer :=
          Nat.mul_le_mul h2 hqpp
        omega
      unfold getQuestion startedState storeQuestions
      rw [List.get?_append hlen]
      cases hup : (items.mapIdx (fun i q => { q with id := toString i })).get? 0 with
      | none =>
        rw [List.get?_eq_none] at hup
        omega
      | some q => exact ⟨q, rfl⟩
    obtain ⟨q, hq⟩ := hq0
    rw [hq]
    exact ⟨rfl, rfl⟩

/-- Witness for C2 (amended): the success branch applied to the concrete
ended room. -/
theorem c2_startGame_unguarded_witness :
    (startGame specEnded {} (demoItems 2)).1.room.state = "active" ∧
    (startGame specEnded {} (demoItems 2)).2 = .nextTurn
      (((specEnded.players.filter (fun p => p.online && p.role == "player")).map
        (fun p => p.uid)).headD "") 1 :=
  (c2_startGame_unguarded specEnded {} (demoItems 2)).2.2 (by decide) (by decide) (by decide)

/-- The store after the last participant has left a room that held stored
questions. -/
def duoGone : GameState := voluntaryLeave (voluntaryLeave duo "b") "h"

/-- C9 (code bug evidence): when the last participant leaves, the room
document is deleted and no player documents remain, but the questions
subcollection persists: the deletion does not cascade to questions. -/
theorem c9_orphaned_questions :
    Reachable duoGone ∧ duoGone.roomExists = false ∧ duoGone.players = [] ∧
    duoGone.questions ≠ [] :=
  ⟨Reachable.leave (voluntaryLeave duo "b") "h" (Reachable.leave duo "b" reachable_duo),
    by decide, by decide, by decide⟩

theorem getPlayer_finishSetup (st : GameState) (v : String) (i nq : Nat) (u : String) :
    getPlayer (finishSetup st v i nq).1 u = getPlayer st u := rfl

/-- C5 (counterexample): a valid and correct steal submitted on the last
question of a reachable game: the stealer is paid 1 + bonusForSteal, but
the game ends rather than advancing to the next question with the stealer
as the new turn-taker, refuting the unconditional advancement in the
claim. -/
theorem c5_counterexample :
    Reachable duoSteal ∧
    duoSteal.room.currentStealAttempt = some ⟨"h", 1⟩ ∧
    duoSteal.room.state = "active" ∧
    (handleSteal duoSteal "h" "1" 0 false).2 = .endGame ∧
    (getPlayer (handleSteal duoSteal "h" "1" 0 false).1 "h").map Player.score = some 3 ∧
    (handleSteal duoSteal "h" "1" 0 false).1.room.state = "ended" ∧
    (handleSteal duoSteal "h" "1" 0 false).1.room.currentTurnUid = none :=
  ⟨reachable_duoSteal, by decide, by decide, by decide, by decide, by decide, by decide⟩

/-- C5 (amended): for a valid submitSteal on an active room, a correct
answer atomically pays the stealer 1 + bonusForSteal, and when the next
question index is still below questionCount, that question exists and the
stealer is still an online player, the game advances to the next question
with the stealer as the new turn-taker at their index in
activeTurnOrderUids; when the next index reaches questionCount the game
ends instead (see the counterexample). -/
theorem c5_steal_resolution (st : GameState) (u qid : String) (ai : Int) (q q2 : Question)
    (hex : st.roomExists = true) (hact : st.room.state = "active")
    (hsa : st.room.currentStealAttempt = some ⟨u, st.room.currentQuestionDbIndex⟩)
    (hq : getQuestion st st.room.currentQuestionDbIndex = some q)
    (hqid : q.id = qid)
    (hai : ai = (q.correctIndex : Int))
    (hk : jsIndexOf st.room.activeTurnOrderUids u ≠ -1)
    (hcount : st.room.currentQuestionDbIndex + 1 < st.room.questionCount)
    (hq2 : getQuestion st (st.room.currentQuestionDbIndex + 1) = some q2)
    (honline : isOnlinePlayer st u = true) :
    (∀ p, getPlayer st u = some p →
      getPlayer (handleSteal st u qid ai false).1 u
        = some { p with score := p.score + (1 + st.room.gameSettings.bonusForSteal) }) ∧
    (handleSteal st u qid ai false).1.room.currentQuestionDbIndex
      = st.room.currentQuestionDbIndex + 1 ∧
    (handleSteal st u qid ai false).1.room.currentTurnUid = some u ∧
    (handleSteal st u qid ai false).1.room.currentPlayerIndexInOrder
      = ((jsIndexOf st.room.activeTurnOrderUids u).toNat : Int) ∧
    (handleSteal st u qid ai false).1.room.currentStealAttempt = none ∧
    (handleSteal st u qid ai false).2
      = .nextTurn u (st.room.currentQuestionDbIndex + 1 + 1) := by
  have hgf : stealGuardFail st u = false := by
    unfold stealGuardFail
    rw [hsa]
    simp
  have hcm : currentQuestionIfMatch st qid = some q := by
    unfold currentQuestionIfMatch
    rw [hq]
    change (if q.id = qid then some q else none) = some q
    rw [if_pos hqid]
  have hcorrect : (!false && ((q.correctIndex : Int) == ai)) = true := by simp [hai]
  have hq2i : getQuestion (incScore st u (1 + st.room.gameSettings.bonusForSteal))
      (st.room.currentQuestionDbIndex + 1) = some q2 := hq2
  have honi : isOnlinePlayer (incScore st u (1 + st.room.gameSettings.bonusForSteal)) u
      = true := by
    rw [isOnlinePlayer_incScore]
    exact honline
  have hred : handleSteal st u qid ai false
      = finishSetup (incScore st u (1 + st.room.gameSettings.bonusForSteal)) u
        (jsIndexOf st.room.activeTurnOrderUids u).toNat
        (st.room.currentQuestionDbIndex + 1) := by
    simp only [handleSteal, hcm]
    rw [if_neg (not_not_intro ⟨hex, hact⟩), if_neg (by simp [hgf]), if_pos hcorrect,
      if_neg hk]
    simp only [setupNextTurnOrEndGame, hq2i]
    rw [if_neg (show ¬ (st.room.currentQuestionDbIndex + 1 ≥
        (incScore st u (1 + st.room.gameSettings.bonusForSteal)).room.questionCount) from
      (by omega : ¬ (st.room.currentQuestionDbIndex + 1 ≥ st.room.questionCount)))]
    rw [if_pos honi]
  refine ⟨?_, ?_, ?_, ?_, ?_, ?_⟩
  · intro p hp
    rw [hred, getPlayer_finishSetup, getPlayer_incScore, hp]
    rfl
  · rw [hred]
    rfl
  · rw [hred]
    rfl
  · rw [hred]
    rfl
  · rw [hred]
    rfl
  · rw [hred]
    rfl

/-- Witness for C5 (amended): the correct steal by b on question 0 of the
three-player game pays 1 + bonusForSteal = 2 and makes b the turn-taker
of question 1. -/
theorem c5_steal_resolution_witness :
    getPlayer (handleSteal stealPending "b" "0" 0 false).1 "b"
      = some { uid := "b", name := "Bob", joinOrder := 2, score := 0 + (1 + 1),
               online := true, role := "player" } ∧
    (handleSteal stealPending "b" "0" 0 false).1.room.currentTurnUid = some "b" :=
  ⟨(c5_steal_resolution stealPending "b" "0" 0 (demoQuestion 0) (demoQuestion 1)
      (by decide) (by decide) (by decide) (by decide) (by decide) (by decide) (by decide)
      (by decide) (by decide) (by decide)).1
      ⟨"b", "Bob", 2, 0, true, "player"⟩ (by decide),
   (c5_steal_resolution stealPending "b" "0" 0 (demoQuestion 0) (demoQuestion 1)
      (by decide) (by decide) (by decide) (by decide) (by decide) (by decide) (by decide)
      (by decide) (by decide) (by decide)).2.2.1⟩

/-- C10: while a steal attempt is pending, submitAnswer has no guard on
currentStealAttempt, so a second submission by the original turn-taker for
the same question passes every guard and is processed as a fresh answer:
a correct answer pays 1 point, the pending steal attempt is cleared, and
the game advances to the next question before the stealer has acted. -/
theorem c10_answer_during_steal (st : GameState) (u qid : String) (ai : Int)
    (q q2 : Question) (sa : StealAttempt) (nu : String) (ni : Nat)
    (hex : st.roomExists = true) (hact : st.room.state = "active")
    (_hsa : st.room.currentStealAttempt = some sa)
    (hturn : st.room.currentTurnUid = some u)
    (hq : getQuestion st st.room.currentQuestionDbIndex = some q)
    (hqid : q.id = qid)
    (hai : ai = (q.correctIndex : Int))
    (hfind : findNextOnlinePlayer (incScore st u 1) (some u) = some (nu, ni))
    (hcount : st.room.currentQuestionDbIndex + 1 < st.room.questionCount)
    (hq2 : getQuestion st (st.room.currentQuestionDbIndex + 1) = some q2) :
    (∀ p, getPlayer st u = some p →
      getPlayer (submitAnswer st u qid ai false).1 u = some { p with score := p.score + 1 }) ∧
    (submitAnswer st u qid ai false).1.room.currentStealAttempt = none ∧
    (submitAnswer st u qid ai false).1.room.currentQuestionDbIndex
      = st.room.currentQuestionDbIndex + 1 ∧
    (submitAnswer st u qid ai false).1.room.currentTurnUid = some nu ∧
    (submitAnswer st u qid ai false).2
      = .nextTurn nu (st.room.currentQuestionDbIndex + 1 + 1) := by
  have hcm : currentQuestionIfMatch st qid = some q := by
    unfold currentQuestionIfMatch
    rw [hq]
    change (if q.id = qid then some q else none) = some q
    rw [if_pos hqid]
  have hcorrect : (!false && ((q.correctIndex : Int) == ai)) = true := by simp [hai]
  have hq2i : getQuestion (incScore st u 1) (st.room.currentQuestionDbIndex + 1)
      = some q2 := hq2
  have honi : isOnlinePlayer (incScore st u 1) nu = true :=
    findNextOnlinePlayer_online hfind
  have hred : submitAnswer st u qid ai false
      = finishSetup (incScore st u 1) nu ni (st.room.currentQuestionDbIndex + 1) := by
    simp only [submitAnswer, hcm]
    rw [if_neg (not_not_intro ⟨hex, hact⟩), if_neg (by simp [hturn]), if_neg (by simp)]
    simp only [hcorrect, eq_self_iff_true, if_true]
    simp only [advanceAfter, hfind]
    simp only [setupNextTurnOrEndGame, hq2i]
    rw [if_neg (show ¬ (st.room.currentQuestionDbIndex + 1 ≥
        (incScore st u 1).room.questionCount) from
      (by omega : ¬ (st.room.currentQuestionDbIndex + 1 ≥ st.room.questionCount)))]
    rw [if_pos honi]
  refine ⟨?_, ?_, ?_, ?_, ?_⟩
  · intro p hp
    rw [hred, getPlayer_finishSetup, getPlayer_incScore, hp]
    rfl
  · rw [hred]
    rfl
  · rw [hred]
    rfl
  · rw [hred]
    rfl
  · rw [hred]
    rfl

/-- Witness for C10: at the reachable state with a steal pending for b on
question 0, the turn-taker h submits again, scores the point, the steal
attempt is cleared and the game advances. -/
theorem c10_answer_during_steal_witness :
    getPlayer (submitAnswer stealPending "h" "0" 0 false).1 "h"
      = some { uid := "h", name := "Host", joinOrder := 1, score := 0 + 1,
               online := true, role := "player" } ∧
    (submitAnswer stealPending "h" "0" 0 false).1.room.currentStealAttempt = none :=
  ⟨(c10_answer_during_steal stealPending "h" "0" 0 (demoQuestion 0) (demoQuestion 1)
      ⟨"b", 0⟩ "b" 1 (by decide) (by decide) (by decide) (by decide) (by decide)
      (by decide) (by decide) (by decide) (by decide) (by decide)).1
      ⟨"h", "Host", 1, 0, true, "player"⟩ (by decide),
   (c10_answer_during_steal stealPending "h" "0" 0 (demoQuestion 0) (demoQuestion 1)
      ⟨"b", 0⟩ "b" 1 (by decide) (by decide) (by decide) (by decide) (by decide)
      (by decide) (by decide) (by decide) (by decide) (by decide)).2.1⟩

/-- C6 (counterexample): a reachable waiting room filled to 8 players and
5 spectators; a game:rejoin by a spectator unconditionally sets their role
to player, driving the player-role count to 9 and violating the claimed
capacity invariant. -/
theorem c6_counterexample :
    Reachable (handleRejoinGame fullLobby "s1").1 ∧
    fullLobby.players.countP (fun p => p.role == "player") = 8 ∧
    fullLobby.players.countP (fun p => p.role == "spectator") = 5 ∧
    (handleRejoinGame fullLobby "s1").1.players.countP (fun p => p.role == "player") = 9 :=
  ⟨Reachable.rejoin fullLobby "s1" reachable_fullLobby, by decide, by decide, by decide⟩

theorem countP_role_append (ps : List Player) {u name : String} {jo : Nat}
    {r : String} {r2 : String} :
    (ps ++ [(⟨u, name, jo, 0, true, r⟩ : Player)]).countP (fun p => p.role == r2)
      = ps.countP (fun p => p.role == r2) + (if (r == r2) = true then 1 else 0) := by
  simp [List.countP_append, List.countP_cons]

/-- C6 (amended): joinRoom preserves the capacity bounds (player-role
count at most 8, spectators at most 5, total at most 13) for a new
joiner, but handleRejoinGame enforces no capacity: on a waiting room it
unconditionally sets the rejoining user role to player, which can push
the player-role count above 8. -/
theorem c6_capacity (st : GameState) (u name : String) :
    (getPlayer st u = none →
      st.players.countP (fun p => p.role == "player") ≤ 8 →
      st.players.countP (fun p => p.role == "spectator") ≤ 5 →
      st.players.length ≤ 13 →
      (joinRoomSvc st u name).1.players.countP (fun p => p.role == "player") ≤ 8 ∧
      (joinRoomSvc st u name).1.players.countP (fun p => p.role == "spectator") ≤ 5 ∧
      (joinRoomSvc st u name).1.players.length ≤ 13) ∧
    (∀ p, st.roomExists = true → st.room.state = "waiting" → getPlayer st u = some p →
      (handleRejoinGame st u).2 = .ok "player" "waiting") := by
  constructor
  · intro hnew hp8 hs5 ht13
    simp only [joinRoomSvc]
    split
    · exact ⟨hp8, hs5, ht13⟩
    split
    · exact ⟨hp8, hs5, ht13⟩
    split
    · next psome hsome => rw [hnew] at hsome; exact absurd hsome (by simp)
    · split
      · exact ⟨hp8, hs5, ht13⟩
      next h13 =>
        split
        · -- active room: new spectator, subject to the spectator bound
          split
          · exact ⟨hp8, hs5, ht13⟩
          next h5 =>
            refine ⟨?_, ?_, ?_⟩
            · rw [countP_role_append]
              simp
              omega
            · rw [countP_role_append]
              simp
              omega
            · simp only [List.length_append, List.length_cons, List.length_nil]
              omega
        · split
          · -- player role full
            split
            · -- waiting room: demote to spectator when spectator slots remain
              split
              next h5 =>
                refine ⟨?_, ?_, ?_⟩
                · rw [countP_role_append]
                  simp
                  omega
                · rw [countP_role_append]
                  simp
                  omega
                · simp only [List.length_append, List.length_cons, List.length_nil]
                  omega
              · exact ⟨hp8, hs5, ht13⟩
            · exact ⟨hp8, hs5, ht13⟩
          next h8 =>
            refine ⟨?_, ?_, ?_⟩
            · rw [countP_role_append]
              simp
              omega
            · rw [countP_role_append]
              simp
              omega
            · simp only [List.length_append, List.length_cons, List.length_nil]
              omega
  · intro p hex hwait hp
    simp only [handleRejoinGame, hp]
    rw [if_neg (by simp [hex]), if_neg (by simp [hwait]), if_pos (Or.inl hwait), hwait]

/-- Witness for C6 (amended): the capacity branch applied to a fresh
room, and the rejoin branch applied to the full lobby. -/
theorem c6_capacity_witness :
    ((joinRoomSvc lobby1 "x" "Xan").1.players.countP (fun p => p.role == "player") ≤ 8 ∧
      (joinRoomSvc lobby1 "x" "Xan").1.players.countP (fun p => p.role == "spectator") ≤ 5 ∧
      (joinRoomSvc lobby1 "x" "Xan").1.players.length ≤ 13) ∧
    (handleRejoinGame fullLobby "s1").2 = .ok "player" "waiting" :=
  ⟨(c6_capacity lobby1 "x" "Xan").1 (by decide) (by decide) (by decide) (by decide),
   (c6_capacity fullLobby "s1" "s1").2 ⟨"s1", "s1", 9, 0, true, "spectator"⟩
     (by decide) (by decide) (by decide)⟩

/-- C7 (counterexample): a spectator who joined a running game,
disconnected, and rejoined after the game ended: the rejoin sets their
role to player although their pre-disconnect role was spectator and the
room is not active, refuting the claimed role round-trip. -/
theorem c7_counterexample :
    Reachable specEnded ∧
    (getPlayer specEnded "s").map Player.role = some "spectator" ∧
    (getPlayer specEnded "s").map Player.online = some false ∧
    (handleRejoinGame specEnded "s").2 = .ok "player" "ended" ∧
    (getPlayer (handleRejoinGame specEnded "s").1 "s").map Player.role = some "player" :=
  ⟨reachable_specEnded, by decide, by decide, by decide, by decide⟩

/-- C7 (amended): the rejoin role is computed from the current room state
and not from the pre-disconnect role: in an active room the rejoiner
becomes spectator when absent from activeTurnOrderUids or when their slot
has passed (index before the current one, or equal with a different
currentTurnUid) and player otherwise; in a waiting or ended room the role
is always player, whatever it was before. -/
theorem c7_rejoin_roles (st : GameState) (u : String) (p : Player)
    (hex : st.roomExists = true) (hp : getPlayer st u = some p) :
    (st.room.state = "active" →
      (jsIndexOf st.room.activeTurnOrderUids u = -1 →
        (handleRejoinGame st u).2 = .ok "spectator" "active") ∧
      (jsIndexOf st.room.activeTurnOrderUids u ≠ -1 →
        (jsIndexOf st.room.activeTurnOrderUids u < st.room.currentPlayerIndexInOrder ∨
          (jsIndexOf st.room.activeTurnOrderUids u = st.room.currentPlayerIndexInOrder ∧
            st.room.currentTurnUid ≠ some u)) →
        (handleRejoinGame st u).2 = .ok "spectator" "active") ∧
      (jsIndexOf st.room.activeTurnOrderUids u ≠ -1 →
        ¬ (jsIndexOf st.room.activeTurnOrderUids u < st.room.currentPlayerIndexInOrder ∨
          (jsIndexOf st.room.activeTurnOrderUids u = st.room.currentPlayerIndexInOrder ∧
            st.room.currentTurnUid ≠ some u)) →
        (handleRejoinGame st u).2 = .ok "player" "active")) ∧
    (st.room.state = "waiting" → (handleRejoinGame st u).2 = .ok "player" "waiting") ∧
    (st.room.state = "ended" → (handleRejoinGame st u).2 = .ok "player" "ended") := by
  refine ⟨?_, ?_, ?_⟩
  · intro hact
    refine ⟨?_, ?_, ?_⟩
    · intro hmiss
      simp only [handleRejoinGame, hp]
      rw [if_neg (by simp [hex]), if_pos hact, if_pos hmiss]
    · intro hin hpassed
      simp only [handleRejoinGame, hp]
      rw [if_neg (by simp [hex]), if_pos hact, if_neg hin, if_pos hpassed]
    · intro hin hnot
      simp only [handleRejoinGame, hp]
      rw [if_neg (by simp [hex]), if_pos hact, if_neg hin, if_neg hnot]
  · intro hwait
    simp only [handleRejoinGame, hp]
    rw [if_neg (by simp [hex]), if_neg (by simp [hwait]), if_pos (Or.inl hwait), hwait]
  · intro hend
    simp only [handleRejoinGame, hp]
    rw [if_neg (by simp [hex]), if_neg (by simp [hend]), if_pos (Or.inr hend), hend]

/-- Witness for C7 (amended): the ended-room branch applied to the
concrete ended game with the spectator. -/
theorem c7_rejoin_roles_witness :
    (handleRejoinGame specEnded "s").2 = .ok "player" "ended" :=
  (c7_rejoin_roles specEnded "s" ⟨"s", "Sam", 3, 0, false, "spectator"⟩
    (by decide) (by decide)).2.2 (by decide)

/-- C8 (code bug evidence): the shuffle in startGame is
options.sort(() => 0.5 - Math.random()), a comparison sort with a random
comparator, not a Fisher-Yates shuffle.  Modelling the library sort as
insertion sort (what engines use for short arrays) with a fair coin per
comparison, the identity ordering of a four-option item is produced by 8
of the 64 equally likely coin sequences while the reversed ordering is
produced by exactly 1, so the resulting distribution over orderings is
far from uniform. -/
theorem c8_shuffle_not_uniform :
    shuffleCount ⟨"q", "d", ["a", "b", "c"]⟩ ["a", "b", "c", "d"] = 8 ∧
    shuffleCount ⟨"q", "d", ["a", "b", "c"]⟩ ["d", "c", "b", "a"] = 1 ∧
    (8 : Nat) ≠ 1 :=
  ⟨by decide, by decide, by decide⟩

end QuizGame
